import Mathlib

/-!
Verification development for the md write-intent bitmap engine
(src/bitmap.c).  The counter map, page pool, storage layer and the
public write/endwrite/daemon/resize operations are shallowly embedded
as executable Lean functions; machine integers are modelled as Nat with
explicit reduction modulo 2^16 (counter cells), 2^30 (the 30-bit page
count bitfield) and 2^64 (unsigned long), and the C bit-mask operations
on counter cells are translated to the equivalent division/modulus
arithmetic on those bounded values.
-/

/-- Modelled from the spec: page geometry (section 3; the numeric
constants live in the bitmap.h header, which is not part of src/).
A page is nominally 4096 bytes. -/
def PAGE_SHIFT : Nat := 12

def PAGE_SIZE : Nat := 2 ^ PAGE_SHIFT

def PAGE_BITS : Nat := PAGE_SIZE * 8

def PAGE_BIT_SHIFT : Nat := PAGE_SHIFT + 3

/-- Modelled from the spec: a counter is 16 bits (section 3,
"Counter (16 bits)"). -/
def COUNTER_BITS : Nat := 16

def COUNTER_BIT_SHIFT : Nat := 4

def COUNTER_BYTE_SHIFT : Nat := COUNTER_BIT_SHIFT - 3

/-- Modelled from the spec: NEEDED is the top bit of a counter cell
(predicate NEEDED(x) = (x & 0x8000) != 0). -/
def NEEDED_MASK : Nat := 2 ^ (COUNTER_BITS - 1)

/-- Modelled from the spec: RESYNC is bit 14 of a counter cell. -/
def RESYNC_MASK : Nat := 2 ^ (COUNTER_BITS - 2)

def COUNTER_MASK : Nat := RESYNC_MASK - 1

/-- Modelled from the spec: the in-flight count saturates at
COUNTER_MAX = 0x3FFE (section 3). -/
def COUNTER_MAX : Nat := COUNTER_MASK - 1

/-- Chunk-index-to-page shift for the two-level counter map:
PAGE_BIT_SHIFT - COUNTER_BIT_SHIFT = 11, so one page holds 2048
counters. -/
def PAGE_COUNTER_SHIFT : Nat := PAGE_BIT_SHIFT - COUNTER_BIT_SHIFT

def PAGE_COUNTER_MASK : Nat := 2 ^ PAGE_COUNTER_SHIFT - 1

/-- Modelled from the spec: the superblock is a fixed 256 bytes
(section 6). -/
def BITMAP_SB_BYTES : Nat := 256

/-- Range of a 16-bit counter cell. -/
def U16 : Nat := 2 ^ 16

/-- Range of the 30-bit `count` bitfield of a page slot. -/
def U30 : Nat := 2 ^ 30

/-- Range of a C `unsigned long` on the 64-bit target. -/
def U64 : Nat := 2 ^ 64

/-- COUNTER(x) = x & COUNTER_MASK: the low 14 bits of a cell
(mask of low bits, written as a modulus). -/
def COUNTER (x : Nat) : Nat := x % (COUNTER_MASK + 1)

/-- NEEDED(x) = (x & NEEDED_MASK) != 0: bit 15 of the cell. -/
def NEEDED (x : Nat) : Prop := x / NEEDED_MASK % 2 = 1

instance (x : Nat) : Decidable (NEEDED x) :=
  inferInstanceAs (Decidable (x / NEEDED_MASK % 2 = 1))

/-- RESYNC(x) = (x & RESYNC_MASK) != 0: bit 14 of the cell. -/
def RESYNC (x : Nat) : Prop := x / RESYNC_MASK % 2 = 1

instance (x : Nat) : Decidable (RESYNC x) :=
  inferInstanceAs (Decidable (x / RESYNC_MASK % 2 = 1))

/-- Effect of the C statement `*bmc |= NEEDED_MASK` on a 16-bit cell:
set bit 15. -/
def setNeeded (v : Nat) : Nat := if NEEDED v then v else v + NEEDED_MASK

/-- Effect of `*bmc |= RESYNC_MASK`: set bit 14. -/
def setResync (v : Nat) : Nat := if RESYNC v then v else v + RESYNC_MASK

/-- Effect of `*bmc &= ~NEEDED_MASK` on a 16-bit cell: clear bit 15. -/
def clearNeeded (v : Nat) : Nat := if NEEDED v then v - NEEDED_MASK else v

/-- Effect of `*bmc &= ~RESYNC_MASK`: clear bit 14. -/
def clearResync (v : Nat) : Nat := if RESYNC v then v - RESYNC_MASK else v

/-- One page slot of the counter map (struct bitmap_page, bitmap.h /
spec section 3).  Following the spec's design note, the C pointer
punning of a hijacked slot is modelled as a tagged record: `map` is
the allocated counter page (a function from counter index to cell
value) or none, and `lo`/`hi` are the two inline counters that live in
the pointer word while the slot is hijacked. -/
structure bitmap_page where
  map : Option (Nat → Nat)
  hijacked : Bool
  lo : Nat
  hi : Nat
  count : Nat
  pending : Bool

/-- A freshly zeroed page slot (the bp array is allocated with
kzalloc). -/
def emptyPage : bitmap_page := ⟨none, false, 0, 0, 0, false⟩

/-- struct bitmap_counts: the two-level in-memory counter structure. -/
structure bitmap_counts where
  chunkshift : Nat
  chunks : Nat
  pages : Nat
  missing_pages : Nat
  bp : Nat → bitmap_page

/-- Point update of one page slot of the bp array. -/
def updateBp (c : bitmap_counts) (page : Nat) (f : bitmap_page → bitmap_page) :
    bitmap_counts :=
  {c with bp := fun p => if p = page then f (c.bp p) else c.bp p}

/-- bitmap_checkpage (src/bitmap.c lines 48-97): check a page slot and,
if necessary, allocate it, or hijack it when the allocation fails.
`allocOk` is the outcome of the kzalloc call (the allocation oracle);
the error codes are -EINVAL = -22 and -ENOENT = -2. -/
def bitmap_checkpage (c : bitmap_counts) (page : Nat) (create : Bool)
    (allocOk : Bool) : bitmap_counts × Int :=
  if page ≥ c.pages then (c, -22)
  else if (c.bp page).hijacked then (c, 0)
  else if (c.bp page).map.isSome then (c, 0)
  else if create = false then (c, -2)
  else if allocOk = false then
    -- kzalloc failed: set the hijacked flag (the map is still absent
    -- in this sequential model, mirroring the `if (!bp[page].map)`
    -- re-check after the lock is retaken)
    if (c.bp page).map.isNone then
      (updateBp c page (fun s => {s with hijacked := true}), 0)
    else (c, 0)
  else if (c.bp page).map.isSome || (c.bp page).hijacked then
    -- somebody beat us to getting the page
    (c, 0)
  else
    ({updateBp c page (fun s => {s with map := some (fun _ => 0)}) with
        missing_pages := (c.missing_pages + (U64 - 1)) % U64}, 0)

/-- bitmap_checkfree (src/bitmap.c lines 102-121): release a page slot
whose count is zero; a hijacked slot is un-hijacked, a normal slot has
its page freed and missing_pages incremented. -/
def bitmap_checkfree (c : bitmap_counts) (page : Nat) : bitmap_counts :=
  if (c.bp page).count ≠ 0 then c
  else if (c.bp page).hijacked then
    updateBp c page (fun s => {s with hijacked := false, map := none})
  else
    {updateBp c page (fun s => {s with map := none}) with
      missing_pages := (c.missing_pages + 1) % U64}

/-- bitmap_count_page (src/bitmap.c lines 1144-1151): adjust the page
slot's 30-bit count field by `inc` and call bitmap_checkfree. -/
def bitmap_count_page (c : bitmap_counts) (offset : Nat) (inc : Int) :
    bitmap_counts :=
  let chunk := offset / 2 ^ c.chunkshift
  let page := chunk / 2 ^ PAGE_COUNTER_SHIFT
  let c := updateBp c page
    (fun s => {s with count := (((s.count : Int) + inc) % (U30 : Int)).toNat})
  bitmap_checkfree c page

/-- bitmap_set_pending (src/bitmap.c lines 1153-1161): set the owning
page slot's pending hint. -/
def bitmap_set_pending (c : bitmap_counts) (offset : Nat) : bitmap_counts :=
  let chunk := offset / 2 ^ c.chunkshift
  let page := chunk / 2 ^ PAGE_COUNTER_SHIFT
  if (c.bp page).pending then c
  else updateBp c page (fun s => {s with pending := true})

/-- Identity of the counter cell resolved by bitmap_get_counter: either
a counter inside an allocated page, or one of the two inline counters
of a hijacked slot. -/
inductive CellRef where
  | mem (page idx : Nat)
  | lo (page : Nat)
  | hi (page : Nat)
deriving DecidableEq

/-- Value of a counter cell. -/
def readCell (c : bitmap_counts) (r : CellRef) : Nat :=
  match r with
  | .mem page idx =>
    match (c.bp page).map with
    | some f => f idx
    | none => 0
  | .lo page => (c.bp page).lo
  | .hi page => (c.bp page).hi

/-- Store a value into a counter cell. -/
def writeCell (c : bitmap_counts) (r : CellRef) (v : Nat) : bitmap_counts :=
  match r with
  | .mem page idx =>
    match (c.bp page).map with
    | some f =>
      updateBp c page
        (fun s => {s with map := some (fun i => if i = idx then v else f i)})
    | none => c
  | .lo page => updateBp c page (fun s => {s with lo := v})
  | .hi page => updateBp c page (fun s => {s with hi := v})

/-- bitmap_get_counter (src/bitmap.c lines 1294-1334): resolve a sector
offset to its counter cell, possibly allocating (or hijacking) the
owning page; also report how many sectors the cell covers.  The C
shifts and masks `chunk >> PAGE_COUNTER_SHIFT`,
`(chunk & PAGE_COUNTER_MASK) << COUNTER_BYTE_SHIFT` and
`offset & (csize - 1)` are written as division/modulus by the
corresponding powers of two. -/
def bitmap_get_counter (c : bitmap_counts) (offset : Nat) (create : Bool)
    (allocOk : Bool) : bitmap_counts × Nat × Option CellRef :=
  let chunk := offset / 2 ^ c.chunkshift
  let page := chunk / 2 ^ PAGE_COUNTER_SHIFT
  let pageoff := chunk % 2 ^ PAGE_COUNTER_SHIFT * 2 ^ COUNTER_BYTE_SHIFT
  let res := bitmap_checkpage c page create allocOk
  let c := res.1
  let err := res.2
  let csize :=
    if (c.bp page).hijacked ∨ (c.bp page).map.isNone then
      2 ^ (c.chunkshift + PAGE_COUNTER_SHIFT - 1)
    else
      2 ^ c.chunkshift
  let blocks := csize - offset % csize
  if err < 0 then (c, blocks, none)
  else if (c.bp page).hijacked then
    (c, blocks, some (if pageoff > PAGE_COUNTER_MASK then .hi page else .lo page))
  else
    (c, blocks, some (.mem page (chunk % 2 ^ PAGE_COUNTER_SHIFT)))

/-- struct bitmap_storage (src/bitmap.c / bitmap.h): the on-disk image.
`sb_page` records whether a superblock page is present (page 0),
`filemap` whether the page array is attached, `bits` is the bit array
addressed by (page index) * PAGE_BITS + (bit offset in page), and
`filemap_attr` the 4-bit-per-page attribute vector addressed by
(page index) * 4 + attribute.  The superblock page contents that
bitmap_update_sb maintains are modelled by the sb_* fields. -/
structure bitmap_storage where
  sb_page : Bool
  filemap : Bool
  file_pages : Nat
  bits : Nat → Bool
  filemap_attr : Nat → Bool
  sb_events : Nat
  sb_events_cleared : Nat
  sb_state_stale : Bool
  bytes : Nat

/-- file_page_index (src/bitmap.c lines 723-729): the storage page that
contains the bit of a chunk; when a superblock is embedded the bit
array is displaced by sizeof(bitmap_super_t) * 8 bits. -/
def file_page_index (store : bitmap_storage) (chunk : Nat) : Nat :=
  (chunk + if store.sb_page then BITMAP_SB_BYTES * 8 else 0) / PAGE_BITS

/-- file_page_offset (src/bitmap.c lines 732-738): the bit offset of a
chunk's bit within its storage page. -/
def file_page_offset (store : bitmap_storage) (chunk : Nat) : Nat :=
  (chunk + if store.sb_page then BITMAP_SB_BYTES * 8 else 0) % PAGE_BITS

/-- filemap_get_page (src/bitmap.c lines 747-754): the filemap position
of the page holding a chunk's bit, or none past the end of the map. -/
def filemap_get_page (store : bitmap_storage) (chunk : Nat) : Option Nat :=
  if file_page_index store chunk ≥ store.file_pages then none
  else some (file_page_index store chunk - file_page_index store 0)

/-- Attribute bits per storage page (enum bitmap_page_attr,
src/bitmap.c lines 865-870). -/
def BITMAP_PAGE_DIRTY : Nat := 0

def BITMAP_PAGE_PENDING : Nat := 1

def BITMAP_PAGE_NEEDWRITE : Nat := 2

/-- set_page_attr (src/bitmap.c lines 872-876). -/
def set_page_attr (store : bitmap_storage) (pnum attr : Nat) : bitmap_storage :=
  {store with filemap_attr := fun i =>
    if i = pnum * 4 + attr then true else store.filemap_attr i}

/-- clear_page_attr (src/bitmap.c lines 878-882). -/
def clear_page_attr (store : bitmap_storage) (pnum attr : Nat) : bitmap_storage :=
  {store with filemap_attr := fun i =>
    if i = pnum * 4 + attr then false else store.filemap_attr i}

/-- test_page_attr (src/bitmap.c lines 884-888). -/
def test_page_attr (store : bitmap_storage) (pnum attr : Nat) : Bool :=
  store.filemap_attr (pnum * 4 + attr)

/-- The runtime bitmap object (struct bitmap).  The mddev fields the
embedded operations consult (events, degraded, external metadata) are
inlined, `woke_overflow` records that wake_up(&overflow_wait) was
called, and `written` is the log of storage page writes issued through
write_page. -/
structure bitmap where
  counts : bitmap_counts
  storage : bitmap_storage
  flag_stale : Bool
  flag_write_error : Bool
  allclean : Bool
  need_sync : Bool
  events_cleared : Nat
  mddev_events : Nat
  mddev_degraded : Bool
  mddev_external : Bool
  behind_writes : Nat
  behind_writes_used : Nat
  woke_overflow : Bool
  written : List Nat

/-- write_page (src/bitmap.c lines 270-297), reduced to its effect on
the model state: the page write is recorded in the log.  (Transport
errors appear in the model as the ambient flag_write_error state.) -/
def write_page (b : bitmap) (pnum : Nat) : bitmap :=
  {b with written := b.written ++ [pnum]}

/-- bitmap_update_sb (src/bitmap.c lines 407-484), restricted to the
superblock-page effect: refresh events, clamp events_cleared when the
array's event counter regressed, record the state flags (including
STALE) in the superblock, and synchronously write page 0.  The
trailing per-node events block (lines 450-483) references fields
(bitmap->used, events[], per_node_pages, avail_bitmap) that no file of
this repository defines; the spec lists it as an open question, so it
is not modelled. -/
def bitmap_update_sb (b : bitmap) : bitmap :=
  if b.mddev_external then b
  else if b.storage.sb_page = false then b
  else
    let ec := if b.mddev_events < b.events_cleared then b.mddev_events
              else b.events_cleared
    let b := {b with
      events_cleared := ec,
      storage := {b.storage with
        sb_events := b.mddev_events,
        sb_events_cleared := ec,
        sb_state_stale := b.flag_stale}}
    write_page b 0

/-- bitmap_file_kick (src/bitmap.c lines 840-863): on the first failure
(test_and_set_bit on BITMAP_STALE) mark the bitmap stale and rewrite
the superblock; later calls do nothing. -/
def bitmap_file_kick (b : bitmap) : bitmap :=
  if b.flag_stale then b
  else bitmap_update_sb {b with flag_stale := true}

/-- bitmap_file_set_bit (src/bitmap.c lines 903-925): set the chunk's
bit in the storage page and mark the page DIRTY.  The HOSTENDIAN
versus little-endian choice only permutes bits within a byte, so the
abstract bit index is the same for both. -/
def bitmap_file_set_bit (b : bitmap) (block : Nat) : bitmap :=
  let chunk := block / 2 ^ b.counts.chunkshift
  match filemap_get_page b.storage chunk with
  | none => b
  | some pg =>
    let bit := file_page_offset b.storage chunk
    let store := {b.storage with bits := fun i =>
      if i = pg * PAGE_BITS + bit then true else b.storage.bits i}
    {b with storage := set_page_attr store pg BITMAP_PAGE_DIRTY}

/-- bitmap_file_clear_bit (src/bitmap.c lines 927-948): clear the
chunk's bit; unless the page is already queued for writing
(NEEDWRITE), mark it PENDING and clear allclean. -/
def bitmap_file_clear_bit (b : bitmap) (block : Nat) : bitmap :=
  let chunk := block / 2 ^ b.counts.chunkshift
  match filemap_get_page b.storage chunk with
  | none => b
  | some pg =>
    let bit := file_page_offset b.storage chunk
    let store := {b.storage with bits := fun i =>
      if i = pg * PAGE_BITS + bit then false else b.storage.bits i}
    if test_page_attr store pg BITMAP_PAGE_NEEDWRITE then
      {b with storage := store}
    else
      {b with storage := set_page_attr store pg BITMAP_PAGE_PENDING,
              allclean := false}

/-- Body of the bitmap_unplug page loop (src/bitmap.c lines 965-977)
for pages i, i+1, ... (fuel counts the remaining pages); the returned
flag records whether any DIRTY page was written (the wait case). -/
def bitmap_unplug_loop (b : bitmap) (i : Nat) : Nat → bitmap × Bool
  | 0 => (b, false)
  | fuel + 1 =>
    if i ≥ b.storage.file_pages then (b, false)
    else
      let dirty := test_page_attr b.storage i BITMAP_PAGE_DIRTY
      let need_write := test_page_attr b.storage i BITMAP_PAGE_NEEDWRITE
      let store := clear_page_attr
        (clear_page_attr b.storage i BITMAP_PAGE_DIRTY) i BITMAP_PAGE_NEEDWRITE
      let b := {b with storage := store}
      let b := if dirty || need_write then
          let store := clear_page_attr b.storage i BITMAP_PAGE_PENDING
          write_page {b with storage := store} i
        else b
      let res := bitmap_unplug_loop b (i + 1) fuel
      (res.1, res.2 || dirty)

/-- bitmap_unplug (src/bitmap.c lines 953-987): flush DIRTY/NEEDWRITE
pages, then kick the bitmap if a write error was observed.  Nothing is
done when no filemap is attached or the bitmap is stale. -/
def bitmap_unplug (b : bitmap) : bitmap :=
  if b.storage.filemap = false ∨ b.flag_stale then b
  else
    let res := bitmap_unplug_loop b 0 b.storage.file_pages
    let b := res.1
    if b.flag_write_error then bitmap_file_kick b else b

/-- Counter-cell effect of one bitmap_startwrite step (src/bitmap.c
lines 1377-1386): the switch raises a cell that reads 0 or 1 to 2, and
the cell is then incremented (16-bit arithmetic). -/
def startwrite_cell (v : Nat) : Nat :=
  ((if v = 0 ∨ v = 1 then 2 else v) + 1) % U16

/-- Counter-cell value after the NEEDED update of bitmap_endwrite
(src/bitmap.c lines 1432-1433): on failure, set NEEDED unless already
set. -/
def endwrite_need (success : Bool) (v : Nat) : Nat :=
  if success = false ∧ ¬ NEEDED v then v + NEEDED_MASK else v

/-- Counter-cell effect of one bitmap_endwrite step (src/bitmap.c
lines 1432-1438): the NEEDED update followed by the 16-bit
decrement. -/
def endwrite_cell (success : Bool) (v : Nat) : Nat :=
  (endwrite_need success v + (U16 - 1)) % U16

/-- Counter-cell effect of one daemon visit (src/bitmap.c lines
1251-1260): a bare 1 with no pending sync decays to 0; a cell reading
1 or 2 otherwise is demoted to 1. -/
def daemon_cell (need_sync : Bool) (v : Nat) : Nat :=
  if v = 1 ∧ need_sync = false then 0
  else if v ≠ 0 ∧ v ≤ 2 then 1
  else v

/-- Counter-cell effect of __bitmap_start_sync (src/bitmap.c lines
1465-1475): when NEEDED and not RESYNC, a non-degraded array converts
NEEDED into RESYNC. -/
def start_sync_cell (degraded : Bool) (v : Nat) : Nat :=
  if RESYNC v then v
  else if NEEDED v then
    (if degraded = false then clearNeeded (setResync v) else v)
  else v

/-- Counter-cell effect of bitmap_end_sync (src/bitmap.c lines
1519-1529): clear RESYNC; an aborted sync re-raises NEEDED. -/
def end_sync_cell (aborted : Bool) (v : Nat) : Nat :=
  if RESYNC v then
    (if ¬ NEEDED (clearResync v) ∧ aborted then setNeeded (clearResync v)
     else clearResync v)
  else v

/-- Counter-cell effect of bitmap_set_memory_bits (src/bitmap.c lines
1598-1599): a zero cell is set to 2 | (needed ? NEEDED_MASK : 0). -/
def set_memory_cell (needed : Bool) (v : Nat) : Nat :=
  if v = 0 then 2 + (if needed then NEEDED_MASK else 0) else v

/-- Outcome of one iteration of the bitmap_startwrite while loop. -/
inductive StartwriteResult where
  | stepped (b : bitmap) (blocks : Nat)
  | nullret (b : bitmap)
  | blocked (b : bitmap)

/-- One iteration of the bitmap_startwrite while loop (src/bitmap.c
lines 1352-1394): resolve the counter with create = 1; a missing cell
ends the call (`return 0`), a saturated counter suspends the writer on
the overflow queue, otherwise a cell reading 0 gets its on-disk bit
set and its page count raised before the increment. -/
def bitmap_startwrite_step (b : bitmap) (offset : Nat) (allocOk : Bool) :
    StartwriteResult :=
  let res := bitmap_get_counter b.counts offset true allocOk
  let b1 := {b with counts := res.1}
  match res.2.2 with
  | none => .nullret b1
  | some r =>
    let v := readCell b1.counts r
    if COUNTER v = COUNTER_MAX then .blocked b1
    else
      let b2 :=
        if v = 0 then
          let bb := bitmap_file_set_bit b1 offset
          {bb with counts := bitmap_count_page bb.counts offset 1}
        else b1
      .stepped {b2 with counts := writeCell b2.counts r (startwrite_cell v)}
        res.2.1

/-- The bitmap_startwrite while loop over the sector range; fuel bounds
the number of iterations (each iteration consumes at least one
sector), and none is returned if a step suspends on the overflow
queue. -/
def bitmap_startwrite_go (b : bitmap) (offset sectors : Nat) (allocOk : Bool) :
    Nat → Option bitmap
  | 0 => if sectors = 0 then some b else none
  | fuel + 1 =>
    if sectors = 0 then some b
    else
      match bitmap_startwrite_step b offset allocOk with
      | .nullret b => some b
      | .blocked _ => none
      | .stepped b blocks =>
        bitmap_startwrite_go b (offset + blocks) (sectors - blocks) allocOk fuel

/-- bitmap_startwrite (src/bitmap.c lines 1336-1397): the behind-writes
gauge update followed by the per-chunk loop. -/
def bitmap_startwrite (b : bitmap) (offset sectors : Nat) (behind : Bool)
    (allocOk : Bool) : Option bitmap :=
  let b :=
    if behind then
      let bw := b.behind_writes + 1
      let used := if bw > b.behind_writes_used then bw else b.behind_writes_used
      {b with behind_writes := bw, behind_writes_used := used}
    else b
  bitmap_startwrite_go b offset sectors allocOk sectors

/-- One iteration of the bitmap_endwrite while loop (src/bitmap.c lines
1413-1449): resolve the counter with create = 0 (a missing cell ends
the call), adopt a newer event counter on a healthy array, set NEEDED
on failure, wake the overflow queue when the counter is saturated,
decrement, and raise the page's pending hint when the result is at
most 2. -/
def bitmap_endwrite_step (b : bitmap) (offset : Nat) (success : Bool) :
    Option (bitmap × Nat) :=
  let res := bitmap_get_counter b.counts offset false false
  let b := {b with counts := res.1}
  match res.2.2 with
  | none => none
  | some r =>
    let b :=
      if success ∧ ¬ b.mddev_degraded ∧ b.events_cleared < b.mddev_events then
        {b with events_cleared := b.mddev_events, need_sync := true}
      else b
    let v := readCell b.counts r
    let v1 := endwrite_need success v
    let b := {b with counts := writeCell b.counts r v1}
    let b := if COUNTER v1 = COUNTER_MAX then {b with woke_overflow := true}
             else b
    let v2 := (v1 + (U16 - 1)) % U16
    let b := {b with counts := writeCell b.counts r v2}
    let b :=
      if v2 ≤ 2 then
        {b with counts := bitmap_set_pending b.counts offset, allclean := false}
      else b
    some (b, res.2.1)

/-- The bitmap_endwrite while loop over the sector range; fuel bounds
the iteration count. -/
def bitmap_endwrite_go (b : bitmap) (offset sectors : Nat) (success : Bool) :
    Nat → bitmap
  | 0 => b
  | fuel + 1 =>
    if sectors = 0 then b
    else
      match bitmap_endwrite_step b offset success with
      | none => b
      | some (b, blocks) =>
        bitmap_endwrite_go b (offset + blocks) (sectors - blocks) success fuel

/-- bitmap_endwrite (src/bitmap.c lines 1400-1451): the behind-writes
gauge update followed by the per-chunk loop. -/
def bitmap_endwrite (b : bitmap) (offset sectors : Nat)
    (success behind : Bool) : bitmap :=
  let b := if behind then {b with behind_writes := b.behind_writes - 1} else b
  bitmap_endwrite_go b offset sectors success sectors

/-- One counter visit of the daemon sweep (src/bitmap.c lines
1243-1260), for chunk index j: a counter reading exactly 1 with no
pending superblock sync is cleared together with its on-disk bit and
its page count; a counter reading 1 or 2 otherwise is demoted to 1 and
its page marked pending. -/
def bitmap_daemon_visit (b : bitmap) (j : Nat) : bitmap :=
  let block := j * 2 ^ b.counts.chunkshift
  let res := bitmap_get_counter b.counts block false false
  let b := {b with counts := res.1}
  match res.2.2 with
  | none => b
  | some r =>
    let v := readCell b.counts r
    if v = 1 ∧ b.need_sync = false then
      let b := {b with counts := writeCell b.counts r 0}
      let b := {b with counts := bitmap_count_page b.counts block (-1)}
      bitmap_file_clear_bit b block
    else if v ≠ 0 ∧ v ≤ 2 then
      let b := {b with counts := writeCell b.counts r 1}
      {b with counts := bitmap_set_pending b.counts block, allclean := false}
    else b

/-- bitmap_set_memory_bits (src/bitmap.c lines 1583-1605): resolve (and
if needed create) the chunk's counter; only a cell reading zero is
initialized, to 2 plus NEEDED when requested, together with the page
count, the pending hint and allclean. -/
def bitmap_set_memory_bits (b : bitmap) (offset : Nat) (needed : Bool)
    (allocOk : Bool) : bitmap :=
  let res := bitmap_get_counter b.counts offset true allocOk
  let b := {b with counts := res.1}
  match res.2.2 with
  | none => b
  | some r =>
    let v := readCell b.counts r
    if v = 0 then
      let b := {b with counts := writeCell b.counts r (set_memory_cell needed v)}
      let b := {b with counts := bitmap_count_page b.counts offset 1}
      {b with counts := bitmap_set_pending b.counts offset, allclean := false}
    else b

/-- Inner while loop of the bitmap_resize copy step (src/bitmap.c lines
2153-2160): while `start` (the chunk-aligned base) has not reached
`endv = block + new_blocks`, call bitmap_file_set_bit at `block` and
advance `start` by one chunk.  Fuel bounds the iteration count. -/
def bitmap_resize_setbits (block endv start : Nat) : Nat → bitmap → bitmap
  | 0, b => b
  | fuel + 1, b =>
    if start < endv then
      bitmap_resize_setbits block endv (start + 2 ^ b.counts.chunkshift) fuel
        (bitmap_file_set_bit b block)
    else b

/-- First bitmap_resize loop (src/bitmap.c lines 2141-2172): walk the
overlap of the old and the new range; wherever the old counter has
NEEDED, create the new counter, initialize a zero cell to 2 (with its
on-disk bits and page bookkeeping) and OR NEEDED into it.  Returns the
final state together with the final block position.  Fuel bounds the
iteration count; each iteration advances block by at least one
sector. -/
def bitmap_resize_copy (stop : Nat) (allocOk : Bool) :
    Nat → bitmap_counts → bitmap → Nat → bitmap × Nat
  | 0, _, b, block => (b, block)
  | fuel + 1, old, b, block =>
    if block ≥ stop then (b, block)
    else
      let ro := bitmap_get_counter old block false false
      let old := ro.1
      let old_blocks := ro.2.1
      let set := match ro.2.2 with
        | some r => decide (NEEDED (readCell old r))
        | none => false
      if set then
        let rn := bitmap_get_counter b.counts block true allocOk
        let b := {b with counts := rn.1}
        let new_blocks := rn.2.1
        let b := match rn.2.2 with
          | none => b
          | some r =>
            let b :=
              if readCell b.counts r = 0 then
                -- need to set the on-disk bits too
                let endv := block + new_blocks
                let start := block / 2 ^ b.counts.chunkshift *
                  2 ^ b.counts.chunkshift
                let b := bitmap_resize_setbits block endv start endv b
                let b := {b with counts := writeCell b.counts r 2}
                let b := {b with counts := bitmap_count_page b.counts block 1}
                {b with counts := bitmap_set_pending b.counts block}
              else b
            {b with counts :=
              writeCell b.counts r (setNeeded (readCell b.counts r))}
        let ob := if new_blocks < old_blocks then new_blocks else old_blocks
        bitmap_resize_copy stop allocOk fuel old b (block + ob)
      else
        bitmap_resize_copy stop allocOk fuel old b (block + old_blocks)

/-- Second bitmap_resize loop (src/bitmap.c lines 2176-2193): initialize
every still-zero counter of the new-beyond-old space to
NEEDED_MASK | 2 together with its page bookkeeping.  Fuel bounds the
iteration count. -/
def bitmap_resize_extend (stop : Nat) (allocOk : Bool) :
    Nat → bitmap → Nat → bitmap
  | 0, b, _ => b
  | fuel + 1, b, block =>
    if block ≥ stop then b
    else
      let rn := bitmap_get_counter b.counts block true allocOk
      let b := {b with counts := rn.1}
      let b := match rn.2.2 with
        | none => b
        | some r =>
          if readCell b.counts r = 0 then
            let b := {b with counts := writeCell b.counts r (NEEDED_MASK + 2)}
            let b := {b with counts := bitmap_count_page b.counts block 1}
            {b with counts := bitmap_set_pending b.counts block}
          else b
      bitmap_resize_extend stop allocOk fuel b (block + rn.2.1)

/-- Final bitmap_resize page sweep (src/bitmap.c lines 2194-2195): mark
storage pages 0 .. n-1 DIRTY. -/
def bitmap_resize_dirty (b : bitmap) : Nat → bitmap
  | 0 => b
  | i + 1 =>
    let b := bitmap_resize_dirty b i
    {b with storage := set_page_attr b.storage i BITMAP_PAGE_DIRTY}

/-- Counter-copy phase of bitmap_resize (src/bitmap.c lines 2126-2197):
install the fresh storage and the fresh zeroed page-slot table with the
new geometry, carry NEEDED counters across the overlap of the old and
the new range, and, unless `init`, initialize the new-beyond-old space
to NEEDED_MASK | 2 and mark every storage page DIRTY.  The chunk-size
selection and storage allocation that precede this phase, and the
unplug/quiesce that follow it, are outside the modelled scope. -/
def bitmap_resize_counters (b : bitmap) (store : bitmap_storage)
    (chunkshift chunks pages : Nat) (init allocOk : Bool) : bitmap :=
  let old := b.counts
  let newcounts : bitmap_counts :=
    ⟨chunkshift, chunks, pages, pages, fun _ => emptyPage⟩
  let b := {b with storage := store, counts := newcounts}
  let blocks := min (old.chunks * 2 ^ old.chunkshift) (chunks * 2 ^ chunkshift)
  let res := bitmap_resize_copy blocks allocOk blocks old b 0
  let b := res.1
  let block := res.2
  if init = false then
    let stop := chunks * 2 ^ chunkshift
    let b := bitmap_resize_extend stop allocOk stop b block
    bitmap_resize_dirty b b.storage.file_pages
  else b

/-- Per-chunk view of the states a single counter cell can reach
through the public API, together with the number of matched in-flight
writes against the chunk (each bitmap_endwrite is the completion of an
earlier bitmap_startwrite, per the startwrite/endwrite contract of
spec section 4.5).  The cell transitions are exactly the cell updates
performed by bitmap_startwrite (guarded by the overflow wait),
bitmap_endwrite, the daemon sweep, __bitmap_start_sync,
bitmap_end_sync, bitmap_set_memory_bits, and the two resize
initializations (a fresh zero cell, or NEEDED_MASK | 2 written by the
resize loops). -/
inductive CellReach : Nat → Nat → Prop where
  | init : CellReach 0 0
  | start (v n : Nat) (h : CellReach v n) (hs : COUNTER v ≠ COUNTER_MAX) :
      CellReach (startwrite_cell v) (n + 1)
  | endw (success : Bool) (v n : Nat) (h : CellReach v (n + 1)) :
      CellReach (endwrite_cell success v) n
  | daemon (ns : Bool) (v n : Nat) (h : CellReach v n) :
      CellReach (daemon_cell ns v) n
  | startsync (d : Bool) (v n : Nat) (h : CellReach v n) :
      CellReach (start_sync_cell d v) n
  | endsync (a : Bool) (v n : Nat) (h : CellReach v n) :
      CellReach (end_sync_cell a v) n
  | setmem (nd : Bool) (v n : Nat) (h : CellReach v n) :
      CellReach (set_memory_cell nd v) n
  | resize : CellReach (NEEDED_MASK + 2) 0

/-- Inductive invariant of a reachable counter cell: the cell is a
16-bit value, its in-flight count never exceeds COUNTER_MAX, with k
matched writes in flight the count reads k + 2, and an idle cell reads
at most 2 (exactly 2 whenever NEEDED or RESYNC is set). -/
def CellInv (v n : Nat) : Prop :=
  v < U16 ∧ COUNTER v ≤ COUNTER_MAX ∧
  ((n = 0 ∧ COUNTER v ≤ 2 ∧
      ((¬ NEEDED v ∧ ¬ RESYNC v) ∨ COUNTER v = 2)) ∨
    (1 ≤ n ∧ COUNTER v = n + 2))

/-- The states of the counter map reachable through the operations that
manipulate page slots: creation with a zeroed slot table,
bitmap_checkpage (with either allocation outcome), bitmap_checkfree,
bitmap_count_page, bitmap_set_pending, and counter-cell stores. -/
inductive CountsReach : bitmap_counts → Prop where
  | init (chunkshift chunks pages : Nat) :
      CountsReach ⟨chunkshift, chunks, pages, pages, fun _ => emptyPage⟩
  | checkpage (c : bitmap_counts) (page : Nat) (create allocOk : Bool)
      (h : CountsReach c) :
      CountsReach (bitmap_checkpage c page create allocOk).1
  | checkfree (c : bitmap_counts) (page : Nat) (h : CountsReach c) :
      CountsReach (bitmap_checkfree c page)
  | count_page (c : bitmap_counts) (offset : Nat) (inc : Int)
      (h : CountsReach c) : CountsReach (bitmap_count_page c offset inc)
  | set_pending (c : bitmap_counts) (offset : Nat) (h : CountsReach c) :
      CountsReach (bitmap_set_pending c offset)
  | write (c : bitmap_counts) (r : CellRef) (v : Nat) (h : CountsReach c) :
      CountsReach (writeCell c r v)

/-- A cell reference is live when it denotes real storage: an inline
counter, or a counter of an actually allocated page. -/
def cellLive (c : bitmap_counts) (r : CellRef) : Prop :=
  match r with
  | .mem page _ => (c.bp page).map.isSome = true
  | .lo _ => True
  | .hi _ => True

theorem readCell_writeCell_self (c : bitmap_counts) (r : CellRef) (v : Nat)
    (h : cellLive c r) : readCell (writeCell c r v) r = v := by
  cases r with
  | mem page idx =>
    simp only [cellLive] at h
    rcases Option.isSome_iff_exists.mp h with ⟨f, hf⟩
    simp [readCell, writeCell, updateBp, hf]
  | lo page => simp [readCell, writeCell, updateBp]
  | hi page => simp [readCell, writeCell, updateBp]

theorem checkpage_ok (c : bitmap_counts) (page : Nat) (create allocOk : Bool)
    (c1 : bitmap_counts) (e : Int)
    (hres : bitmap_checkpage c page create allocOk = (c1, e)) (he : 0 ≤ e) :
    (c1.bp page).hijacked = true ∨ (c1.bp page).map.isSome = true := by
  unfold bitmap_checkpage at hres
  split_ifs at hres with h1 h2 h3 h4 h5 h6 h7
  · injection hres with hc hev
    subst hc
    subst hev
    omega
  · injection hres with hc hev
    subst hc
    exact Or.inl h2
  · injection hres with hc hev
    subst hc
    exact Or.inr h3
  · injection hres with hc hev
    subst hc
    subst hev
    omega
  · injection hres with hc hev
    subst hc
    left
    simp [updateBp]
  · injection hres with hc hev
    subst hc
    right
    rcases hmm : (c.bp page).map with _ | f
    · rw [hmm] at h6
      simp at h6
    · simp
  · injection hres with hc hev
    subst hc
    rcases Bool.or_eq_true_iff.mp h7 with hm | hh
    · exact Or.inr hm
    · exact Or.inl hh
  · injection hres with hc hev
    subst hc
    right
    simp [updateBp]

theorem get_counter_live (c : bitmap_counts) (offset : Nat)
    (create allocOk : Bool) (c1 : bitmap_counts) (blocks : Nat) (r : CellRef)
    (h : bitmap_get_counter c offset create allocOk = (c1, blocks, some r)) :
    cellLive c1 r := by
  simp only [bitmap_get_counter] at h
  split at h
  · exact absurd (congrArg (fun t => t.2.2) h) (by simp)
  · split at h
    · next hhij =>
      injection h with h1 h2
      injection h2 with h2 h3
      injection h3 with h3
      subst h1
      subst h3
      split <;> trivial
    · next herr hhij =>
      injection h with h1 h2
      injection h2 with h2 h3
      injection h3 with h3
      have hok := checkpage_ok c
        (offset / 2 ^ c.chunkshift / 2 ^ PAGE_COUNTER_SHIFT) create allocOk
        (bitmap_checkpage c (offset / 2 ^ c.chunkshift / 2 ^ PAGE_COUNTER_SHIFT)
          create allocOk).1
        (bitmap_checkpage c (offset / 2 ^ c.chunkshift / 2 ^ PAGE_COUNTER_SHIFT)
          create allocOk).2 rfl (by omega)
      subst h1
      subst h3
      simp only [cellLive]
      rcases hok with hh | hm
      · exact absurd hh hhij
      · exact hm

theorem NEEDED_MASK_eq : NEEDED_MASK = 32768 := by decide

theorem RESYNC_MASK_eq : RESYNC_MASK = 16384 := by decide

theorem COUNTER_MASK_eq : COUNTER_MASK = 16383 := by decide

theorem COUNTER_MAX_eq : COUNTER_MAX = 16382 := by decide

theorem U16_eq : U16 = 65536 := by decide

theorem U30_eq : U30 = 1073741824 := by decide

theorem PAGE_COUNTER_SHIFT_eq : PAGE_COUNTER_SHIFT = 11 := by decide

theorem PAGE_COUNTER_MASK_eq : PAGE_COUNTER_MASK = 2047 := by decide

theorem PAGE_BITS_eq : PAGE_BITS = 32768 := by decide

theorem COUNTER_BYTE_SHIFT_eq : COUNTER_BYTE_SHIFT = 1 := by decide

theorem COUNTER_eq (x : Nat) : COUNTER x = x % 16384 := rfl

theorem NEEDED_iff (x : Nat) : NEEDED x ↔ x / 32768 % 2 = 1 := Iff.rfl

theorem RESYNC_iff (x : Nat) : RESYNC x ↔ x / 16384 % 2 = 1 := Iff.rfl

/-- Every reachable counter cell satisfies the inductive invariant. -/
theorem cellReach_inv (v n : Nat) (h : CellReach v n) : CellInv v n := by
  induction h with
  | init =>
    simp only [CellInv, COUNTER_eq, NEEDED_iff, RESYNC_iff, NEEDED_MASK_eq,
      RESYNC_MASK_eq, COUNTER_MAX_eq, U16_eq, true_and, and_true, true_or,
      or_true, false_and, and_false, false_or, or_false]
    omega
  | start v n h hs ih =>
    simp only [CellInv, COUNTER_eq, NEEDED_iff, RESYNC_iff, NEEDED_MASK_eq,
      RESYNC_MASK_eq, COUNTER_MAX_eq, U16_eq, true_and, and_true, true_or,
      or_true, false_and, and_false, false_or, or_false] at ih ⊢
    simp only [COUNTER_eq, COUNTER_MAX_eq] at hs
    simp only [startwrite_cell, U16_eq]
    split_ifs <;> omega
  | endw success v n h ih =>
    simp only [CellInv, COUNTER_eq, NEEDED_iff, RESYNC_iff, NEEDED_MASK_eq,
      RESYNC_MASK_eq, COUNTER_MAX_eq, U16_eq, true_and, and_true, true_or,
      or_true, false_and, and_false, false_or, or_false] at ih ⊢
    simp only [endwrite_cell, endwrite_need, NEEDED_iff, NEEDED_MASK_eq, U16_eq]
    cases success <;>
      simp only [eq_self_iff_true, Bool.true_eq_false, Bool.false_eq_true,
        true_and, false_and, and_true, and_false, if_true, if_false, not_true,
        not_false_iff] <;>
      (try split_ifs) <;> (try simp) <;> omega
  | daemon ns v n h ih =>
    simp only [CellInv, COUNTER_eq, NEEDED_iff, RESYNC_iff, NEEDED_MASK_eq,
      RESYNC_MASK_eq, COUNTER_MAX_eq, U16_eq, true_and, and_true, true_or,
      or_true, false_and, and_false, false_or, or_false] at ih ⊢
    simp only [daemon_cell]
    cases ns <;>
      simp only [eq_self_iff_true, Bool.true_eq_false, Bool.false_eq_true,
        true_and, false_and, and_true, and_false, if_true, if_false, not_true,
        not_false_iff] <;>
      (try split_ifs) <;> (try simp) <;> omega
  | startsync d v n h ih =>
    simp only [CellInv, COUNTER_eq, NEEDED_iff, RESYNC_iff, NEEDED_MASK_eq,
      RESYNC_MASK_eq, COUNTER_MAX_eq, U16_eq, true_and, and_true, true_or,
      or_true, false_and, and_false, false_or, or_false] at ih ⊢
    simp only [start_sync_cell, clearNeeded, setResync, NEEDED_iff, RESYNC_iff,
      NEEDED_MASK_eq, RESYNC_MASK_eq]
    cases d <;>
      simp only [eq_self_iff_true, Bool.true_eq_false, Bool.false_eq_true,
        true_and, false_and, and_true, and_false, if_true, if_false, not_true,
        not_false_iff] <;>
      (try split_ifs) <;> (try simp) <;> omega
  | endsync a v n h ih =>
    simp only [CellInv, COUNTER_eq, NEEDED_iff, RESYNC_iff, NEEDED_MASK_eq,
      RESYNC_MASK_eq, COUNTER_MAX_eq, U16_eq, true_and, and_true, true_or,
      or_true, false_and, and_false, false_or, or_false] at ih ⊢
    simp only [end_sync_cell, clearResync, setNeeded, NEEDED_iff, RESYNC_iff,
      NEEDED_MASK_eq, RESYNC_MASK_eq]
    cases a <;>
      simp only [eq_self_iff_true, Bool.true_eq_false, Bool.false_eq_true,
        true_and, false_and, and_true, and_false, if_true, if_false, not_true,
        not_false_iff] <;>
      (try split_ifs) <;> (try simp) <;> omega
  | setmem nd v n h ih =>
    simp only [CellInv, COUNTER_eq, NEEDED_iff, RESYNC_iff, NEEDED_MASK_eq,
      RESYNC_MASK_eq, COUNTER_MAX_eq, U16_eq, true_and, and_true, true_or,
      or_true, false_and, and_false, false_or, or_false] at ih ⊢
    simp only [set_memory_cell, NEEDED_MASK_eq]
    cases nd <;>
      simp only [eq_self_iff_true, Bool.true_eq_false, Bool.false_eq_true,
        true_and, false_and, and_true, and_false, if_true, if_false, not_true,
        not_false_iff] <;>
      (try split_ifs) <;> (try simp) <;> omega
  | resize =>
    simp only [CellInv, COUNTER_eq, NEEDED_iff, RESYNC_iff, NEEDED_MASK_eq,
      RESYNC_MASK_eq, COUNTER_MAX_eq, U16_eq, true_and, and_true, true_or,
      or_true, false_and, and_false, false_or, or_false]
    omega

theorem COUNTER_endwrite_need (s : Bool) (v : Nat) :
    COUNTER (endwrite_need s v) = COUNTER v := by
  unfold endwrite_need
  split
  · simp only [COUNTER_eq, NEEDED_MASK_eq]
    omega
  · rfl

/-- Example storage: one page, superblock embedded, filemap attached,
all bits and attributes clear. -/
def exStorage : bitmap_storage :=
  ⟨true, true, 1, fun _ => false, fun _ => false, 0, 0, false, 0⟩

/-- Example page slot holding a counter page whose every cell is
saturated at COUNTER_MAX. -/
def exPageSat : bitmap_page := ⟨some (fun _ => 16382), false, 0, 0, 1, false⟩

/-- Example counter map: one chunk of one sector (chunkshift 0), one
page slot, saturated. -/
def exCountsSat : bitmap_counts := ⟨0, 1, 1, 0, fun _ => exPageSat⟩

/-- Example bitmap state with a saturated counter. -/
def exBitmapSat : bitmap :=
  ⟨exCountsSat, exStorage, false, false, true, false, 0, 0, false, false,
    0, 0, false, []⟩

/-- C5: in every state reachable via the public API, every chunk
satisfies 0 ≤ COUNTER(counter) ≤ COUNTER_MAX; bitmap_startwrite never
increments a counter whose count equals COUNTER_MAX (the step suspends
on the overflow wait queue instead), and a bitmap_endwrite step that
decrements a counter whose count equals COUNTER_MAX wakes the overflow
waiters. -/
theorem claim_C5 :
    (∀ v n, CellReach v n → COUNTER v ≤ COUNTER_MAX) ∧
    (∀ (b : bitmap) (offset : Nat) (allocOk : Bool) (c1 : bitmap_counts)
      (blocks : Nat) (r : CellRef),
      bitmap_get_counter b.counts offset true allocOk = (c1, blocks, some r) →
      COUNTER (readCell c1 r) = COUNTER_MAX →
      bitmap_startwrite_step b offset allocOk =
        StartwriteResult.blocked {b with counts := c1}) ∧
    (∀ (b : bitmap) (offset : Nat) (success : Bool) (c1 : bitmap_counts)
      (blocks : Nat) (r : CellRef),
      bitmap_get_counter b.counts offset false false = (c1, blocks, some r) →
      COUNTER (readCell c1 r) = COUNTER_MAX →
      ∃ b' bl, bitmap_endwrite_step b offset success = some (b', bl) ∧
        b'.woke_overflow = true) := by
  refine ⟨?_, ?_, ?_⟩
  · intro v n h
    exact (cellReach_inv v n h).2.1
  · intro b offset allocOk c1 blocks r hget hmax
    simp only [bitmap_startwrite_step, hget]
    rw [if_pos hmax]
  · intro b offset success c1 blocks r hget hmax
    simp only [bitmap_endwrite_step, hget, apply_ite bitmap.counts, ite_self]
    refine ⟨_, _, rfl, ?_⟩
    have hv1 : COUNTER (endwrite_need success (readCell c1 r)) = COUNTER_MAX := by
      rw [COUNTER_endwrite_need]
      exact hmax
    split <;> simp only [apply_ite bitmap.woke_overflow, if_pos hv1]

theorem claim_C5_witness :
    COUNTER (startwrite_cell 0) ≤ COUNTER_MAX ∧
    bitmap_startwrite_step exBitmapSat 0 true =
      StartwriteResult.blocked {exBitmapSat with counts := exCountsSat} ∧
    (∃ b' bl, bitmap_endwrite_step exBitmapSat 0 true = some (b', bl) ∧
      b'.woke_overflow = true) :=
  ⟨claim_C5.1 (startwrite_cell 0) 1
      (CellReach.start 0 0 CellReach.init (by decide)),
    claim_C5.2.1 exBitmapSat 0 true exCountsSat 1 (CellRef.mem 0 0) rfl
      (by decide),
    claim_C5.2.2 exBitmapSat 0 true exCountsSat 1 (CellRef.mem 0 0) rfl
      (by decide)⟩

/-- The hijack invariant of the page pool: a hijacked slot holds no
allocated counter page. -/
def HijInv (c : bitmap_counts) : Prop :=
  ∀ p, (c.bp p).hijacked = true → (c.bp p).map = none


theorem bp_updateBp (c : bitmap_counts) (page : Nat)
    (f : bitmap_page → bitmap_page) (p : Nat) :
    (updateBp c page f).bp p = if p = page then f (c.bp p) else c.bp p := rfl

theorem HijInv_checkfree (c : bitmap_counts) (page : Nat) (h : HijInv c) :
    HijInv (bitmap_checkfree c page) := by
  intro p hp
  simp only [bitmap_checkfree] at hp ⊢
  split_ifs at hp ⊢ with h1 h2
  · exact h _ hp
  · rw [bp_updateBp] at hp ⊢
    by_cases hpq : p = page
    · subst hpq
      simp
    · simp only [hpq, if_false] at hp ⊢
      exact h _ hp
  · rw [show ({updateBp c page
        (fun s => {s with map := none}) with
        missing_pages := (c.missing_pages + 1) % U64} : bitmap_counts).bp p =
          (updateBp c page (fun s => {s with map := none})).bp p from rfl,
      bp_updateBp] at hp ⊢
    by_cases hpq : p = page
    · subst hpq
      simp
    · simp only [hpq, if_false] at hp ⊢
      exact h _ hp

theorem HijInv_checkpage (c : bitmap_counts) (page : Nat)
    (create allocOk : Bool) (h : HijInv c) :
    HijInv (bitmap_checkpage c page create allocOk).1 := by
  intro p hp
  simp only [bitmap_checkpage] at hp ⊢
  split_ifs at hp ⊢ with h1 h2 h3 h4 h5 h6 h7
  · exact h _ hp
  · exact h _ hp
  · exact h _ hp
  · exact h _ hp
  · simp only [bp_updateBp] at hp ⊢
    by_cases hpq : p = page
    · subst hpq
      simp only [if_pos rfl]
      simpa [Option.isNone_iff_eq_none] using h6
    · simp only [hpq, if_false] at hp ⊢
      exact h _ hp
  · exact h _ hp
  · exact h _ hp
  · simp only [bp_updateBp] at hp ⊢
    by_cases hpq : p = page
    · subst hpq
      simp only [if_pos rfl] at hp
      have hhij : (c.bp p).hijacked = true := by simpa using hp
      exact absurd hhij (fun hh => h7 (by simp [hh]))
    · simp only [hpq, if_false] at hp ⊢
      exact h _ hp

theorem HijInv_writeCell (c : bitmap_counts) (r : CellRef) (v : Nat)
    (h : HijInv c) : HijInv (writeCell c r v) := by
  intro p hp
  cases r with
  | mem page idx =>
    simp only [writeCell] at hp ⊢
    rcases hm : (c.bp page).map with _ | f
    · simp only [hm] at hp ⊢
      exact h _ hp
    · simp only [hm, bp_updateBp] at hp ⊢
      by_cases hpq : p = page
      · subst hpq
        simp only [if_pos rfl] at hp
        have hhij : (c.bp p).hijacked = true := by simpa using hp
        have := h p hhij
        rw [hm] at this
        cases this
      · simp only [hpq, if_false] at hp ⊢
        exact h _ hp
  | lo page =>
    simp only [writeCell, bp_updateBp] at hp ⊢
    by_cases hpq : p = page
    · subst hpq
      simp only [if_pos rfl] at hp ⊢
      simpa using h p (by simpa using hp)
    · simp only [hpq, if_false] at hp ⊢
      exact h _ hp
  | hi page =>
    simp only [writeCell, bp_updateBp] at hp ⊢
    by_cases hpq : p = page
    · subst hpq
      simp only [if_pos rfl] at hp ⊢
      simpa using h p (by simpa using hp)
    · simp only [hpq, if_false] at hp ⊢
      exact h _ hp

theorem HijInv_count_page (c : bitmap_counts) (offset : Nat) (inc : Int)
    (h : HijInv c) : HijInv (bitmap_count_page c offset inc) := by
  simp only [bitmap_count_page]
  apply HijInv_checkfree
  intro p hp
  simp only [bp_updateBp] at hp ⊢
  by_cases hpq : p = offset / 2 ^ c.chunkshift / 2 ^ PAGE_COUNTER_SHIFT
  · subst hpq
    simp only [if_pos rfl] at hp ⊢
    simpa using h _ (by simpa using hp)
  · simp only [hpq, if_false] at hp ⊢
    exact h _ hp

theorem HijInv_set_pending (c : bitmap_counts) (offset : Nat)
    (h : HijInv c) : HijInv (bitmap_set_pending c offset) := by
  intro p hp
  simp only [bitmap_set_pending] at hp ⊢
  split_ifs at hp ⊢ with h1
  · exact h _ hp
  · simp only [bp_updateBp] at hp ⊢
    by_cases hpq : p = offset / 2 ^ c.chunkshift / 2 ^ PAGE_COUNTER_SHIFT
    · subst hpq
      simp only [if_pos rfl] at hp ⊢
      simpa using h _ (by simpa using hp)
    · simp only [hpq, if_false] at hp ⊢
      exact h _ hp

/-- Example empty counter map: one chunk, one (missing) page slot. -/
def exCountsEmpty : bitmap_counts := ⟨0, 1, 1, 1, fun _ => emptyPage⟩

/-- Example counter map with a hijacked, idle slot. -/
def exCountsHij : bitmap_counts := ⟨0, 1, 1, 1, fun _ => ⟨none, true, 0, 0, 0, false⟩⟩

/-- Example counter map with an allocated, idle slot. -/
def exCountsAlloc : bitmap_counts :=
  ⟨0, 1, 1, 0, fun _ => ⟨some (fun _ => 0), false, 0, 0, 0, false⟩⟩

/-- C1-helper claim C9: every reachable counter-map state satisfies
hijacked implies map = null for each page slot; and when a slot's
count is zero, bitmap_checkfree un-hijacks a hijacked slot (its map
staying null) while for a normal allocated slot it frees the page,
sets map to null and increments missing_pages. -/
theorem claim_C9 :
    (∀ c, CountsReach c → ∀ p, (c.bp p).hijacked = true → (c.bp p).map = none) ∧
    (∀ (c : bitmap_counts) (page : Nat),
      (c.bp page).count = 0 → (c.bp page).hijacked = true →
      bitmap_checkfree c page =
        updateBp c page (fun s => {s with hijacked := false, map := none}) ∧
      ((bitmap_checkfree c page).bp page).hijacked = false ∧
      ((bitmap_checkfree c page).bp page).map = none) ∧
    (∀ (c : bitmap_counts) (page : Nat) (f : Nat → Nat),
      (c.bp page).count = 0 → (c.bp page).hijacked = false →
      (c.bp page).map = some f →
      ((bitmap_checkfree c page).bp page).map = none ∧
      (bitmap_checkfree c page).missing_pages =
        (c.missing_pages + 1) % U64) := by
  refine ⟨?_, ?_, ?_⟩
  · intro c hc
    induction hc with
    | init cs ch pg =>
      intro p hp
      simp [emptyPage] at hp
    | checkpage c page create allocOk h ih => exact HijInv_checkpage _ _ _ _ ih
    | checkfree c page h ih => exact HijInv_checkfree _ _ ih
    | count_page c offset inc h ih => exact HijInv_count_page _ _ _ ih
    | set_pending c offset h ih => exact HijInv_set_pending _ _ ih
    | write c r v h ih => exact HijInv_writeCell _ _ _ ih
  · intro c page hcnt hhij
    have heq : bitmap_checkfree c page =
        updateBp c page (fun s => {s with hijacked := false, map := none}) := by
      unfold bitmap_checkfree
      rw [if_neg (by simp [hcnt]), if_pos hhij]
    refine ⟨heq, ?_, ?_⟩
    · rw [heq, bp_updateBp, if_pos rfl]
    · rw [heq, bp_updateBp, if_pos rfl]
  · intro c page f hcnt hhij hm
    have heq : bitmap_checkfree c page =
        {updateBp c page (fun s => {s with map := none}) with
          missing_pages := (c.missing_pages + 1) % U64} := by
      unfold bitmap_checkfree
      rw [if_neg (by simp [hcnt]), if_neg (by simp [hhij])]
    constructor
    · rw [heq]
      simp [updateBp]
    · rw [heq]

theorem claim_C9_witness :
    ((bitmap_checkpage exCountsEmpty 0 true false).1.bp 0).map = none ∧
    (bitmap_checkfree exCountsHij 0 =
      updateBp exCountsHij 0 (fun s => {s with hijacked := false, map := none}) ∧
      ((bitmap_checkfree exCountsHij 0).bp 0).hijacked = false ∧
      ((bitmap_checkfree exCountsHij 0).bp 0).map = none) ∧
    (((bitmap_checkfree exCountsAlloc 0).bp 0).map = none ∧
      (bitmap_checkfree exCountsAlloc 0).missing_pages =
        (exCountsAlloc.missing_pages + 1) % U64) :=
  ⟨claim_C9.1 _
      (CountsReach.checkpage exCountsEmpty 0 true false (CountsReach.init 0 1 1))
      0 rfl,
    claim_C9.2.1 exCountsHij 0 rfl rfl,
    claim_C9.2.2 exCountsAlloc 0 (fun _ => 0) rfl rfl rfl⟩


theorem checkpage_chunkshift (c : bitmap_counts) (page : Nat)
    (create allocOk : Bool) (c1 : bitmap_counts) (e : Int)
    (hres : bitmap_checkpage c page create allocOk = (c1, e)) :
    c1.chunkshift = c.chunkshift := by
  unfold bitmap_checkpage at hres
  split_ifs at hres <;>
    (injection hres with h1 h2; subst h1; rfl)

/-- The span, in sectors, that claim C7 asserts for the cell resolved
by bitmap_get_counter: the coarse hijacked span when the resolved slot
(in the post-call state c1) is hijacked or has no allocated counter
page, one chunk otherwise (spec section 4.2). -/
def claimC7_csize (c c1 : bitmap_counts) (offset : Nat) : Nat :=
  let page := offset / 2 ^ c.chunkshift / 2 ^ PAGE_COUNTER_SHIFT
  if (c1.bp page).hijacked ∨ (c1.bp page).map.isNone then
    2 ^ (c.chunkshift + PAGE_COUNTER_SHIFT - 1)
  else 2 ^ c.chunkshift

/-- C7: every bitmap_get_counter call reports
blocks = csize - (offset mod csize), where csize is the coarse
hijacked span exactly when the resolved page slot is hijacked or has
no allocated map and one chunk otherwise; and for a hijacked slot the
returned cell is the hi inline counter exactly when
pageoff > PAGE_COUNTER_MASK, else the lo inline counter. -/
theorem claim_C7 (c : bitmap_counts) (offset : Nat) (create allocOk : Bool)
    (c1 : bitmap_counts) (blocks : Nat) (ro : Option CellRef)
    (h : bitmap_get_counter c offset create allocOk = (c1, blocks, ro)) :
    blocks = claimC7_csize c c1 offset - offset % claimC7_csize c c1 offset ∧
    (∀ r, ro = some r →
      (c1.bp (offset / 2 ^ c.chunkshift / 2 ^ PAGE_COUNTER_SHIFT)).hijacked =
        true →
      r = (if offset / 2 ^ c.chunkshift % 2 ^ PAGE_COUNTER_SHIFT *
            2 ^ COUNTER_BYTE_SHIFT > PAGE_COUNTER_MASK then
          CellRef.hi (offset / 2 ^ c.chunkshift / 2 ^ PAGE_COUNTER_SHIFT)
        else
          CellRef.lo (offset / 2 ^ c.chunkshift / 2 ^ PAGE_COUNTER_SHIFT))) := by
  have hcs := checkpage_chunkshift c
    (offset / 2 ^ c.chunkshift / 2 ^ PAGE_COUNTER_SHIFT) create allocOk
    (bitmap_checkpage c (offset / 2 ^ c.chunkshift / 2 ^ PAGE_COUNTER_SHIFT)
      create allocOk).1
    (bitmap_checkpage c (offset / 2 ^ c.chunkshift / 2 ^ PAGE_COUNTER_SHIFT)
      create allocOk).2 rfl
  simp only [bitmap_get_counter] at h
  split at h
  · injection h with h1 h2
    injection h2 with h2 h3
    subst h1
    subst h2
    subst h3
    constructor
    · simp only [claimC7_csize]
      rw [hcs]
    · intro r hr
      cases hr
  · split at h
    · next hhij =>
      injection h with h1 h2
      injection h2 with h2 h3
      subst h1
      subst h2
      subst h3
      constructor
      · simp only [claimC7_csize]
        rw [hcs]
      · intro r hr _
        injection hr with hr
        exact hr.symm
    · next herr hhij =>
      injection h with h1 h2
      injection h2 with h2 h3
      subst h1
      subst h2
      subst h3
      constructor
      · simp only [claimC7_csize]
        rw [hcs]
      · intro r hr hj
        exact absurd hj hhij

theorem claim_C7_witness :
    bitmap_get_counter exCountsHij 0 false false =
      (exCountsHij, 1024, some (CellRef.lo 0)) ∧
    (1024 : Nat) =
      claimC7_csize exCountsHij exCountsHij 0 -
        0 % claimC7_csize exCountsHij exCountsHij 0 ∧
    CellRef.lo 0 =
      (if (0 : Nat) / 2 ^ exCountsHij.chunkshift % 2 ^ PAGE_COUNTER_SHIFT *
          2 ^ COUNTER_BYTE_SHIFT > PAGE_COUNTER_MASK then
        CellRef.hi ((0 : Nat) / 2 ^ exCountsHij.chunkshift /
          2 ^ PAGE_COUNTER_SHIFT)
      else
        CellRef.lo ((0 : Nat) / 2 ^ exCountsHij.chunkshift /
          2 ^ PAGE_COUNTER_SHIFT)) := by
  have h := claim_C7 exCountsHij 0 false false exCountsHij 1024
    (some (CellRef.lo 0)) rfl
  exact ⟨rfl, h.1, h.2 (CellRef.lo 0) rfl rfl⟩
